import Mathlib

/-!
Shallow embedding of the customer-segmentation engine
(`src/pattern_clustering/clustering/`): feature preparation, clustering
validation, cluster characterization and nearest-centroid assignment.

Python floats are modelled as exact rationals (ℚ).  Euclidean distances are
carried as their squares (ℚ-computable); wherever the source stores a value
built from a square root (assignment confidence, cluster cohesion), the
embedding stores the exact data of that expression and a separate real-valued
semantics (`ConfVal.toReal`, `distE`) interprets it, so that order and
interval facts about the float are stated over ℝ while every operation on the
data stays executable.
-/

/-- Arithmetic mean of a list of rationals (`np.mean`); `0` on the empty
list (the engine only takes means of nonempty lists). -/
def meanQ (xs : List ℚ) : ℚ := xs.sum / xs.length

/-- Population variance of a list of rationals (`np.var`). -/
def varQ (xs : List ℚ) : ℚ := meanQ (xs.map (fun x => (x - meanQ xs) ^ 2))

/-- Order-preserving deduplication: keeps the first occurrence of each
element, as iterating a Python `dict`/`Counter` does. -/
def firstDedup {α : Type} [DecidableEq α] (xs : List α) : List α :=
  xs.foldl (fun acc x => if x ∈ acc then acc else acc ++ [x]) []

/-- Squared Euclidean distance between two coordinate lists.  The source
computes the Euclidean distance `d = sqrt (distSq xs ys)` (via `cdist` /
`np.linalg.norm`); the square is the ℚ-computable carrier and `distE`
below interprets it as the distance itself. -/
def distSq (xs ys : List ℚ) : ℚ :=
  (List.zipWith (fun a b => (a - b) ^ 2) xs ys).sum

/-- Index of the first minimum of a list (`np.argmin`); `0` on `[]`
(where `np.argmin` raises, handled at each call site). -/
def argminIdx : List ℚ → ℕ
  | [] => 0
  | [_] => 0
  | d :: e :: ds =>
    let j := argminIdx (e :: ds)
    if (e :: ds).getD j 0 < d then j + 1 else 0

/-- Insert index `i` into an index list sorted by ascending `ds`-value,
after any index of equal value (stable). -/
def insertIdxBy (ds : List ℚ) (i : ℕ) : List ℕ → List ℕ
  | [] => [i]
  | j :: js =>
    if ds.getD j 0 ≤ ds.getD i 0 then j :: insertIdxBy ds i js else i :: j :: js

/-- Indices `0..n-1` sorted by ascending value of `ds` (`np.argsort`); ties
keep the lower index first (`np.argsort` leaves tie order unspecified; the
concrete inputs used below have distinct values). -/
def sortIdx (ds : List ℚ) : List ℕ :=
  (List.range ds.length).foldl (fun acc i => insertIdxBy ds i acc) []

/-- First-match association-list lookup with a default, modelling Python
`dict.get(key, default)` (a `dict` has no duplicate keys). -/
def lookupD (l : List (String × ℚ)) (k : String) (dflt : ℚ) : ℚ :=
  match l.find? (fun p => p.1 = k) with
  | some p => p.2
  | none => dflt

/-! ## Assignment module (`clustering/assignment.py`) -/

/-- Feature-group configuration (`feature_config` dict; each flag is read
with `dict.get(key, True)`, so the dict is modelled by its resolved flags). -/
structure FeatureConfig where
  include_drivers : Bool := true
  include_contradiction : Bool := true
  include_quantum : Bool := true
  normalize : Bool := true

/-- Actor profile dictionary as consumed by the assignment and feature
preparation code.  Fields read with `dict.get(key, default)` are `Option`s
(`none` models an absent key); `actor_id` and `driver_distribution` are
indexed directly in the source, and an absent `driver_distribution` key
raises the `KeyError` that each caller turns into its failure path. -/
structure Actor where
  actor_id : String
  driver_distribution : Option (List (String × ℚ))
  contradiction_score : Option ℚ := none
  superposition_detected : Option Bool := none
  coherence : Option ℚ := none

/-- The six fixed driver names, in source order. -/
def driverNames : List String :=
  ["Safety", "Connection", "Status", "Growth", "Freedom", "Purpose"]

/-- Feature row of one actor (the loop bodies shared verbatim by
`prepare_feature_matrix` and `_extract_actor_features`): driver features,
then the contradiction feature, then the two quantum features, each group
present iff its flag is set.  Requires `driver_distribution` to be present
when drivers are included (callers check / catch separately). -/
def buildRow (actor : Actor) (cfg : FeatureConfig) : List ℚ :=
  (if cfg.include_drivers then
    driverNames.map (fun d => lookupD (actor.driver_distribution.getD []) d 0)
  else []) ++
  (if cfg.include_contradiction then [actor.contradiction_score.getD 0] else []) ++
  (if cfg.include_quantum then
    [if actor.superposition_detected.getD false then 1 else 0,
     actor.coherence.getD 0]
  else [])

/-- `_extract_actor_features`: returns `none` when the inner `except`
fires — the only failure is the `KeyError` from `actor['driver_distribution']`
when drivers are included and the key is absent (every other field access
uses `.get` with a default). -/
def extract_actor_features (actor : Actor) (cfg : FeatureConfig) :
    Option (List ℚ) :=
  if cfg.include_drivers ∧ actor.driver_distribution = none then none
  else some (buildRow actor cfg)

/-- The stored float `max(0, 1 - distance/max_possible_distance)`.
`zero` is the literal `0.0` written on the failure paths; `ofDistSq dSq m`
carries the exact data of the success-path expression, whose real value is
`ConfVal.toReal` below (`distance = sqrt dSq`, `max_possible_distance =
sqrt m`). -/
inductive ConfVal
  | zero
  | ofDistSq (dSq : ℚ) (m : ℕ)
deriving DecidableEq

/-- A Python float that is either finite or `float('inf')`.  Finite
distance-to-center values carry the squared distance (the source stores the
distance itself; squaring is injective on distances, so nothing is lost). -/
inductive QInf
  | fin (q : ℚ)
  | inf
deriving DecidableEq

/-- One entry of `alternative_cohorts` (the `distance` key is carried
squared, see `QInf`). -/
structure AltCohort where
  cohort_id : String
  distanceSq : ℚ
  confidence : ConfVal
deriving DecidableEq

/-- Result dictionary of `assign_actor_to_cluster`.  The success and
exception paths also write a `cohort_id` key equal to `assigned_cohort_id`
(the feature-failure path omits it); all consumers read
`assigned_cohort_id`, so only that key is modelled. -/
structure AssignResult where
  assigned_cohort_id : Option String
  confidence : ConfVal
  distance_to_center : QInf
  alternative_cohorts : List AltCohort
  error : Option String
deriving DecidableEq

/-- The `f'cluster_{idx}'` cohort identifier. -/
def clusterName (i : ℕ) : String := "cluster_" ++ toString i

/-- Lines 43–77 of `assign_actor_to_cluster` (after successful feature
extraction).  `cdist` on mismatched dimensions and `np.argmin` on an empty
distance array raise, which the enclosing `except` turns into the error
record (with `str(e)` as message, abstracted to `"exception"`); otherwise
the nearest centroid is selected and, for loop positions `i < min 3 n`
with `i ≠ nearest_cluster_idx` (the source compares the loop position, not
the sorted index, against the argmin), an alternative entry is emitted. -/
def assignFromFeatures (fts : List ℚ) (centers : List (List ℚ)) :
    AssignResult :=
  if centers.isEmpty ∨ centers.any (fun c => c.length ≠ fts.length) then
    { assigned_cohort_id := none, confidence := .zero,
      distance_to_center := .inf, alternative_cohorts := [],
      error := some "exception" }
  else
    let distances := centers.map (distSq fts)
    let nearest := argminIdx distances
    let m := fts.length
    let sorted := sortIdx distances
    let alts :=
      ((List.range (min 3 sorted.length)).filter (fun i => i ≠ nearest)).map
        (fun i =>
          let altIdx := sorted.getD i 0
          { cohort_id := clusterName altIdx,
            distanceSq := distances.getD altIdx 0,
            confidence := .ofDistSq (distances.getD altIdx 0) m })
    { assigned_cohort_id := some (clusterName nearest),
      confidence := .ofDistSq (distances.getD nearest 0) m,
      distance_to_center := .fin (distances.getD nearest 0),
      alternative_cohorts := alts,
      error := none }

/-- `assign_actor_to_cluster`: extracts the actor's features and assigns to
the nearest cluster center; every failure is converted into a result record
with a non-`none` error, so the function is total. -/
def assign_actor_to_cluster (actor : Actor) (cluster_centers : List (List ℚ))
    (cfg : FeatureConfig) : AssignResult :=
  match extract_actor_features actor cfg with
  | none =>
    { assigned_cohort_id := none, confidence := .zero,
      distance_to_center := .inf, alternative_cohorts := [],
      error := some "Failed to extract features" }
  | some fts => assignFromFeatures fts cluster_centers

/-- Result dictionary of `batch_assign_actors` (has an `actor_id` key in
addition to the assignment fields). -/
structure BatchAssignResult where
  actor_id : String
  assigned_cohort_id : Option String
  confidence : ConfVal
  distance_to_center : QInf
  alternative_cohorts : List AltCohort
  error : Option String
deriving DecidableEq

/-- `batch_assign_actors`: the loop over `clusters` is `pass` (a placeholder)
and the function returns, for every actor, a fixed placeholder record with
`error = 'Assignment not implemented yet'`; `assign_actor_to_cluster` is
never called. -/
def batch_assign_actors {γ : Type} (actors : List Actor) (clusters : List γ) :
    List BatchAssignResult :=
  let _ := clusters
  actors.map (fun a =>
    { actor_id := a.actor_id, assigned_cohort_id := none,
      confidence := .zero, distance_to_center := .inf,
      alternative_cohorts := [],
      error := some "Assignment not implemented yet" })

/-! ## Feature preparation (`clustering/feature_preparation.py`) -/

/-- Column `j` of a row-major matrix (absent entries default to `0`;
rectangular inputs never hit the default). -/
def colOf (features : List (List ℚ)) (j : ℕ) : List ℚ :=
  features.map (fun r => r.getD j 0)

/-- Minimum of a list (`np.min`); first element seeds the fold. -/
def colMin (col : List ℚ) : ℚ := col.foldl min (col.headD 0)

/-- Maximum of a list (`np.max`); first element seeds the fold. -/
def colMax (col : List ℚ) : ℚ := col.foldl max (col.headD 0)

/-- `np.std(col) == 0` for finite values: all entries coincide. -/
def colAllEq (col : List ℚ) : Bool := col.all (fun x => x = col.headD 0)

/-- Map over a list with the running index, starting at `j`. -/
def mapFrom (f : ℕ → ℚ → ℚ) : ℕ → List ℚ → List ℚ
  | _, [] => []
  | j, v :: vs => f j v :: mapFrom f (j + 1) vs

/-- `_normalize_features`: each column `i` indexed by `feature_names` is
skipped (left at its original values) when its standard deviation is zero,
and min–max scaled otherwise; the source's `else: 0.5` branch is kept
although `std ≠ 0` implies `max > min` (it is dead code, see
`normalize_dead_branch` below).  Columns beyond `len(feature_names)` are
untouched, as in the source loop. -/
def normalize_features (features : List (List ℚ)) (feature_names : List String) :
    List (List ℚ) :=
  features.map (fun row =>
    mapFrom (fun j v =>
      if j < feature_names.length then
        let col := colOf features j
        if colAllEq col then v
        else
          let mn := colMin col
          let mx := colMax col
          if mn < mx then (v - mn) / (mx - mn) else 1 / 2
      else v) 0 row)

/-- The failure cases of feature preparation and matrix validation.  In the
source all of them are raised as a bare `Exception` carrying a message; the
constructors mirror the raise sites: `noActors` = "No actors provided…",
`missingKey` = the `KeyError` from `actor['driver_distribution']`,
`notTwoD` = "Feature matrix must be 2D…", `insufficientActors` =
"Insufficient actors: n < min" (the spec's `InsufficientDataError`) and
`noFeatures` = "No features found". -/
inductive PrepError
  | noActors
  | missingKey (key : String)
  | notTwoD
  | insufficientActors (n minActors : ℕ)
  | noFeatures
deriving DecidableEq

/-- `validate_feature_matrix`: dimension check (`np.array` of an empty list
is 1-D, so an empty matrix fails the 2-D check), minimum row count, nonzero
column count.  The NaN/Inf checks cannot fire over exact rationals and the
constant-column check is a non-fatal printed warning, so neither appears in
the result. -/
def validate_feature_matrix (features : List (List ℚ)) (min_actors : ℕ) :
    Except PrepError Unit :=
  if features.isEmpty then .error .notTwoD
  else if features.length < min_actors then
    .error (.insufficientActors features.length min_actors)
  else if (features.headD []).length = 0 then .error .noFeatures
  else .ok ()

/-- Column names built by `prepare_feature_matrix` from the enabled groups. -/
def featureNamesOf (cfg : FeatureConfig) : List String :=
  (if cfg.include_drivers then driverNames else []) ++
  (if cfg.include_contradiction then ["contradiction_score"] else []) ++
  (if cfg.include_quantum then ["superposition_strength", "coherence"] else [])

/-- `prepare_feature_matrix`: rejects an empty actor list, builds one feature
row per actor (a missing `driver_distribution` key raises during the loop),
normalizes when configured, then validates with `min_actors = 10`; any
validation error propagates out of the function. -/
def prepare_feature_matrix (actors : List Actor) (cfg : FeatureConfig) :
    Except PrepError (List (List ℚ) × List String × List String) :=
  if actors.isEmpty then .error .noActors
  else if cfg.include_drivers ∧ actors.any (fun a => a.driver_distribution = none) then
    .error (.missingKey "driver_distribution")
  else
    let rows := actors.map (fun a => buildRow a cfg)
    let actor_ids := actors.map (fun a => a.actor_id)
    let feature_names := featureNamesOf cfg
    let features := if cfg.normalize then normalize_features rows feature_names else rows
    match validate_feature_matrix features 10 with
    | .error e => .error e
    | .ok _ => .ok (features, actor_ids, feature_names)

/-! ## Validation (`clustering/validation.py`) -/

/-- Rows of the feature matrix whose parallel label equals `i`
(`features[labels == i]`). -/
def rowsWithLabel (features : List (List ℚ)) (labels : List ℤ) (i : ℤ) :
    List (List ℚ) :=
  ((features.zip labels).filter (fun p => p.2 = i)).map (fun p => p.1)

/-- Number of distinct labels (`len(np.unique(labels))`). -/
def uniqueCount (labels : List ℤ) : ℕ := (firstDedup labels).length

/-- `_calculate_within_cluster_variance`: for each cluster id `0 ≤ i <
n_clusters`, the mean over columns of the per-column variance of the
cluster's rows (`np.var(cluster_features, axis=0).mean()`), or `0.0` for
clusters with at most one row. -/
def within_cluster_variance (features : List (List ℚ)) (labels : List ℤ) :
    List ℚ :=
  (List.range (uniqueCount labels)).map (fun i =>
    let rs := rowsWithLabel features labels (i : ℤ)
    if 1 < rs.length then
      meanQ ((List.range ((features.headD []).length)).map
        (fun j => varQ (colOf rs j)))
    else 0)

/-- Column-wise mean of a set of rows (`np.mean(rows, axis=0)`). -/
def centroidOf (rows : List (List ℚ)) (ncols : ℕ) : List ℚ :=
  (List.range ncols).map (fun j => meanQ (colOf rows j))

/-- `_calculate_between_cluster_distances`: pairwise distances between the
per-cluster centroids (zero vector for an empty cluster id), zero on the
diagonal.  The source stores Euclidean norms; the squares are stored here
(the diagonal and the zero entries agree either way). -/
def between_cluster_distances (features : List (List ℚ)) (labels : List ℤ) :
    List (List ℚ) :=
  let k := uniqueCount labels
  let ncols := (features.headD []).length
  let cents := (List.range k).map (fun i =>
    let rs := rowsWithLabel features labels (i : ℤ)
    if 0 < rs.length then centroidOf rs ncols else List.replicate ncols 0)
  (List.range k).map (fun i => (List.range k).map (fun j =>
    if i ≠ j then distSq (cents.getD i []) (cents.getD j []) else 0))

/-- `_interpret_clustering_quality`: qualitative bucket from the silhouette
value stored in the metrics (sentinel included). -/
def interpret_clustering_quality (silhouette : ℚ) : String :=
  if silhouette > 1 / 2 then "excellent"
  else if silhouette > 3 / 10 then "good"
  else if silhouette > 1 / 5 then "fair"
  else "poor"

/-- The metrics dictionary returned by `validate_clustering`. -/
structure ValidationMetrics where
  silhouette_score : ℚ
  calinski_harabasz_score : ℚ
  davies_bouldin_score : QInf
  within_cluster_variance : List ℚ
  between_cluster_distances : List (List ℚ)
  cluster_sizes : List ℕ
  n_clusters : ℕ
  n_outliers : ℕ
  interpretation : String

/-- `validate_clustering`, parametric in the three scikit-learn metric
functions (`silhouette_score`, `calinski_harabasz_score`,
`davies_bouldin_score`), which are external library code.  Each metric is
computed only when there are at least two distinct labels and strictly fewer
distinct labels than samples; otherwise (and when the library call raises,
which the metric guard rules out) the sentinel −1.0 / 0.0 / +inf is stored.
No branch raises: the function always returns a metrics record. -/
def validate_clustering
    (silhFn chFn dbFn : List (List ℚ) → List ℤ → ℚ)
    (features : List (List ℚ)) (labels : List ℤ) : ValidationMetrics :=
  let n_samples := features.length
  let n_clusters := uniqueCount labels
  let silhouette :=
    if 1 < n_clusters ∧ n_clusters < n_samples then silhFn features labels
    else -1
  { silhouette_score := silhouette
    calinski_harabasz_score :=
      if 1 < n_clusters ∧ n_clusters < n_samples then chFn features labels
      else 0
    davies_bouldin_score :=
      if 1 < n_clusters ∧ n_clusters < n_samples then .fin (dbFn features labels)
      else .inf
    within_cluster_variance := within_cluster_variance features labels
    between_cluster_distances := between_cluster_distances features labels
    cluster_sizes := (List.range n_clusters).map (fun i => labels.count (i : ℤ))
    n_clusters := n_clusters
    n_outliers := if (-1 : ℤ) ∈ labels then labels.count (-1) else 0
    interpretation := interpret_clustering_quality silhouette }

/-! ## Characterization (`clustering/characterization.py`) -/

/-- The six fixed psychological drivers. -/
inductive Driver
  | Safety
  | Connection
  | Status
  | Growth
  | Freedom
  | Purpose
deriving DecidableEq

/-- The driver's name string. -/
def Driver.str : Driver → String
  | .Safety => "Safety"
  | .Connection => "Connection"
  | .Status => "Status"
  | .Growth => "Growth"
  | .Freedom => "Freedom"
  | .Purpose => "Purpose"

/-- The fixed driver iteration order (`drivers = ['Safety', …, 'Purpose']`,
also the insertion order of every driver-keyed dict in the source). -/
def driverOrder : List Driver :=
  [.Safety, .Connection, .Status, .Growth, .Freedom, .Purpose]

/-- `max(d, key=d.get)` on a driver-keyed dict: the first driver in
iteration order achieving the maximal value (Python's `max` keeps the
current element on ties). -/
def argmax_driver (f : Driver → ℚ) : Driver :=
  driverOrder.foldl (fun acc d => if f d > f acc then d else acc) .Safety

/-- A cleaned actor profile as consumed by the characterization module.
`driver_distribution`, `dominant_driver`, `contradiction_score` and
`identity_markers` are indexed directly (the repository's
`_clean_actor_profile` always writes them); `superposition_detected` and
`coherence` are read with `.get` and may be absent. -/
structure Member where
  actor_id : String
  driver_distribution : Driver → ℚ
  dominant_driver : String
  contradiction_score : ℚ
  superposition_detected : Option Bool := none
  coherence : Option ℚ := none
  identity_markers : List String := []

instance : Inhabited Member :=
  ⟨{ actor_id := "", driver_distribution := fun _ => 0, dominant_driver := "",
     contradiction_score := 0 }⟩

/-- `Counter(xs).most_common(1)[0][0]`: the value with the maximal number of
occurrences; ties go to the value encountered first (a `Counter` preserves
first-occurrence order and `most_common`'s sort is stable).  Empty input
(an `IndexError` in the source, never reached: empty clusters are skipped)
yields `""`. -/
def mostCommonStr (xs : List String) : String :=
  xs.foldl (fun acc x => if xs.count x > xs.count acc then x else acc)
    (xs.headD "")

/-- `Counter(xs).most_common(k)`: the first `k` distinct values ordered by
descending count, ties in first-occurrence order (stable insertion sort
over the first-occurrence dedup). -/
def mostCommonK (xs : List String) (k : ℕ) : List String :=
  let distinct := firstDedup xs
  let step : List String → String → List String := fun acc x =>
    let rec ins : List String → List String
      | [] => [x]
      | y :: ys => if xs.count y ≥ xs.count x then y :: ins ys else x :: y :: ys
    ins acc
  (distinct.foldl step []).take k

/-- `_calculate_driver_profile`: per-driver mean over the cluster members. -/
def calculate_driver_profile (members : List Member) : Driver → ℚ :=
  fun d => meanQ (members.map (fun a => a.driver_distribution d))

/-- `_analyze_quantum_states`: `(0, 0)` when the first member's record has no
`superposition_detected` key; otherwise the percentage of members with
superposition detected (absent keys read as `False` via `.get`) and the mean
coherence (absent keys read as `0.0`). -/
def analyze_quantum_states (members : List Member) : ℚ × ℚ :=
  if (members.headD default).superposition_detected = none then (0, 0)
  else
    ((((members.filter (fun a => a.superposition_detected.getD false)).length : ℚ) /
        members.length) * 100,
     meanQ (members.map (fun a => a.coherence.getD 0)))

/-- `_calculate_driver_variance`: mean over the six drivers of the variance
of that driver's values within the cluster. -/
def calculate_driver_variance (members : List Member) : ℚ :=
  meanQ (driverOrder.map (fun d =>
    varQ (members.map (fun a => a.driver_distribution d))))

/-- All unordered pairwise squared distances between rows
(`scipy.spatial.distance.pdist`, squared). -/
def pairSqDists : List (List ℚ) → List ℚ
  | [] => []
  | r :: rs => rs.map (distSq r) ++ pairSqDists rs

/-- The float stored by `_calculate_cluster_cohesion`: `1.0` for clusters of
fewer than two rows, otherwise the exact data of
`max(0, 1 - mean(pdist) / sqrt m)` — the pairwise squared distances and the
feature count (the mean of their square roots divided by `sqrt m` is the
source's quantity). -/
inductive CohesionVal
  | one
  | ofPairs (distSqs : List ℚ) (m : ℕ)
deriving DecidableEq

/-- `_calculate_cluster_cohesion`. -/
def calculate_cluster_cohesion (cluster_features : List (List ℚ)) :
    CohesionVal :=
  if cluster_features.length < 2 then .one
  else .ofPairs (pairSqDists cluster_features)
    ((cluster_features.headD []).length)

/-- The `characteristics` dictionary of a cluster
(`contradiction_distribution` is the low/medium/high percentage triple). -/
structure Characteristics where
  dominant_driver : String
  dominant_percentage : ℚ
  avg_contradiction : ℚ
  contradiction_distribution : ℚ × ℚ × ℚ
  superposition_prevalence : ℚ
  avg_coherence : ℚ
  common_identities : List String
  driver_variance : ℚ
  cluster_cohesion : CohesionVal

/-- `_calculate_cluster_characteristics`: dominant stored driver with its
prevalence, contradiction statistics, quantum analysis, top identity
markers, driver variance and cohesion. -/
def calculate_cluster_characteristics (members : List Member)
    (cluster_features : List (List ℚ)) : Characteristics :=
  let doms := members.map (fun a => a.dominant_driver)
  let dominant := mostCommonStr doms
  let n : ℚ := members.length
  let scores := members.map (fun a => a.contradiction_score)
  let quantum := analyze_quantum_states members
  { dominant_driver := dominant
    dominant_percentage := ((doms.count dominant : ℚ) / n) * 100
    avg_contradiction := meanQ scores
    contradiction_distribution :=
      ((((scores.filter (fun s => s < 3 / 10)).length : ℚ) / n) * 100,
       (((scores.filter (fun s => 3 / 10 ≤ s ∧ s < 6 / 10)).length : ℚ) / n) * 100,
       (((scores.filter (fun s => 6 / 10 ≤ s)).length : ℚ) / n) * 100)
    superposition_prevalence := quantum.1
    avg_coherence := quantum.2
    common_identities := mostCommonK (members.flatMap (fun a => a.identity_markers)) 3
    driver_variance := calculate_driver_variance members
    cluster_cohesion := calculate_cluster_cohesion cluster_features }

/-- `_generate_cohort_name`: deterministic naming rule from the driver
profile and the cluster characteristics, in source branch order. -/
def generate_cohort_name (driver_profile : Driver → ℚ)
    (characteristics : Characteristics) : String :=
  let dominant := argmax_driver driver_profile
  let dominant_value := driver_profile dominant
  if characteristics.avg_contradiction > 6 / 10 then
    "High-Contradiction " ++ dominant.str
  else if dominant_value > 7 / 10 then
    dominant.str ++ "-Focused"
  else if characteristics.superposition_prevalence > 30 then
    "Quantum " ++ dominant.str
  else
    "Balanced " ++ dominant.str

/-- `_clean_actor_profile` (pattern_analysis/data_retrieval.py, line 121)
computes the stored `dominant_driver` of every cleaned record as
`max(driver_values, key=driver_values.get)` over the same
`driver_distribution` it stores, i.e. `argmax_driver`; this is the invariant
assumed about characterization inputs. -/
def cleanedMember (a : Member) : Prop :=
  a.dominant_driver = (argmax_driver a.driver_distribution).str

/-! ## Real-valued semantics of sqrt-based floats -/

/-- Euclidean distance between two coordinate lists, as the source computes
it (`sqrt` of the stored squared distance). -/
noncomputable def distE (xs ys : List ℚ) : ℝ :=
  Real.sqrt ((distSq xs ys : ℚ) : ℝ)

/-- Exact real value of a stored confidence float:
`max(0, 1 - distance / sqrt numFeatures)`. -/
noncomputable def ConfVal.toReal : ConfVal → ℝ
  | .zero => 0
  | .ofDistSq dSq m => max 0 (1 - Real.sqrt ((dSq : ℚ) : ℝ) / Real.sqrt (m : ℝ))

/-! ## Helper lemmas -/

lemma distSq_nil_right (xs : List ℚ) : distSq xs [] = 0 := by
  simp [distSq]

lemma distSq_cons (a b : ℚ) (xs ys : List ℚ) :
    distSq (a :: xs) (b :: ys) = (a - b) ^ 2 + distSq xs ys := by
  simp [distSq]

lemma distSq_nonneg (xs : List ℚ) : ∀ ys, 0 ≤ distSq xs ys := by
  induction xs with
  | nil => intro ys; simp [distSq]
  | cons a xs ih =>
    intro ys
    cases ys with
    | nil => simp [distSq]
    | cons b ys =>
      rw [distSq_cons]
      exact add_nonneg (sq_nonneg _) (ih ys)

lemma distSq_self (xs : List ℚ) : distSq xs xs = 0 := by
  induction xs with
  | nil => simp [distSq]
  | cons a xs ih => rw [distSq_cons]; simp [ih]

lemma distSq_eq_zero (xs : List ℚ) :
    ∀ ys, xs.length = ys.length → distSq xs ys = 0 → xs = ys := by
  induction xs with
  | nil =>
    intro ys hlen _
    cases ys with
    | nil => rfl
    | cons b ys => simp at hlen
  | cons a xs ih =>
    intro ys hlen h0
    cases ys with
    | nil => simp at hlen
    | cons b ys =>
      rw [distSq_cons] at h0
      have hsq : (a - b) ^ 2 = 0 := by
        nlinarith [sq_nonneg (a - b), distSq_nonneg xs ys]
      have htail : distSq xs ys = 0 := by
        nlinarith [sq_nonneg (a - b), distSq_nonneg xs ys]
      have hab : a = b := by
        have := pow_eq_zero_iff (n := 2) (by norm_num) |>.mp hsq
        linarith [sub_eq_zero.mp this]
      have := ih ys (by simpa using hlen) htail
      simp [hab, this]

lemma getD_map_eq {α β : Type} (f : α → β) (l : List α) (da : α) :
    ∀ n, (l.map f).getD n (f da) = f (l.getD n da) := by
  induction l with
  | nil => intro n; simp
  | cons x l ih =>
    intro n
    cases n with
    | zero => simp
    | succ k => simp only [List.map_cons, List.getD_cons_succ]; exact ih k

lemma argminIdx_lt : ∀ (ds : List ℚ), ds ≠ [] → argminIdx ds < ds.length := by
  intro ds
  induction ds with
  | nil => simp
  | cons d t ih =>
    intro _
    cases t with
    | nil => simp [argminIdx]
    | cons e ts =>
      have h2 := ih (by simp)
      simp only [argminIdx]
      split
      · simpa using Nat.succ_lt_succ h2
      · simp

lemma argminIdx_min :
    ∀ (ds : List ℚ) (j : ℕ), j < ds.length →
      ds.getD (argminIdx ds) 0 ≤ ds.getD j 0 := by
  intro ds
  induction ds with
  | nil => intro j hj; simp at hj
  | cons d t ih =>
    intro j hj
    cases t with
    | nil =>
      cases j with
      | zero => simp [argminIdx]
      | succ k => simp at hj
    | cons e ts =>
      simp only [argminIdx]
      split
      · rename_i hlt
        cases j with
        | zero => simpa using le_of_lt hlt
        | succ k =>
          have := ih k (by simpa using hj)
          simpa using this
      · rename_i hge
        push_neg at hge
        cases j with
        | zero => simp
        | succ k =>
          have := ih k (by simpa using hj)
          calc (d :: e :: ts).getD 0 0 = d := rfl
            _ ≤ (e :: ts).getD (argminIdx (e :: ts)) 0 := hge
            _ ≤ (e :: ts).getD k 0 := this
            _ = (d :: e :: ts).getD (k + 1) 0 := rfl

lemma confVal_toReal_nonneg (c : ConfVal) : 0 ≤ c.toReal := by
  cases c with
  | zero => simp [ConfVal.toReal]
  | ofDistSq d m => exact le_max_left _ _

lemma confVal_toReal_le_one (c : ConfVal) : c.toReal ≤ 1 := by
  cases c with
  | zero => simp [ConfVal.toReal]
  | ofDistSq d m =>
    have hx : (0 : ℝ) ≤ Real.sqrt ((d : ℚ) : ℝ) / Real.sqrt (m : ℝ) :=
      div_nonneg (Real.sqrt_nonneg _) (Real.sqrt_nonneg _)
    exact max_le (by norm_num) (by linarith)

lemma confVal_toReal_zero_dist (m : ℕ) :
    (ConfVal.ofDistSq 0 m).toReal = 1 := by
  simp [ConfVal.toReal]

lemma foldl_min_le_init : ∀ (l : List ℚ) (a : ℚ), l.foldl min a ≤ a := by
  intro l
  induction l with
  | nil => intro a; simp
  | cons x l ih =>
    intro a
    calc (x :: l).foldl min a = l.foldl min (min a x) := rfl
      _ ≤ min a x := ih (min a x)
      _ ≤ a := min_le_left _ _

lemma foldl_min_le_mem :
    ∀ (l : List ℚ) (a x : ℚ), x ∈ l → l.foldl min a ≤ x := by
  intro l
  induction l with
  | nil => intro a x hx; simp at hx
  | cons y l ih =>
    intro a x hx
    rcases List.mem_cons.mp hx with h | h
    · subst h
      calc (x :: l).foldl min a = l.foldl min (min a x) := rfl
        _ ≤ min a x := foldl_min_le_init _ _
        _ ≤ x := min_le_right _ _
    · exact ih (min a y) x h

lemma init_le_foldl_max : ∀ (l : List ℚ) (a : ℚ), a ≤ l.foldl max a := by
  intro l
  induction l with
  | nil => intro a; simp
  | cons x l ih =>
    intro a
    calc a ≤ max a x := le_max_left _ _
      _ ≤ l.foldl max (max a x) := ih (max a x)
      _ = (x :: l).foldl max a := rfl

lemma mem_le_foldl_max :
    ∀ (l : List ℚ) (a x : ℚ), x ∈ l → x ≤ l.foldl max a := by
  intro l
  induction l with
  | nil => intro a x hx; simp at hx
  | cons y l ih =>
    intro a x hx
    rcases List.mem_cons.mp hx with h | h
    · subst h
      calc x ≤ max a x := le_max_right _ _
        _ ≤ l.foldl max (max a x) := init_le_foldl_max _ _
        _ = (x :: l).foldl max a := rfl
    · exact ih (max a y) x h

lemma colMin_le_mem (col : List ℚ) (x : ℚ) (hx : x ∈ col) : colMin col ≤ x :=
  foldl_min_le_mem col _ x hx

lemma mem_le_colMax (col : List ℚ) (x : ℚ) (hx : x ∈ col) : x ≤ colMax col :=
  mem_le_foldl_max col _ x hx

/-- A non-constant column has a strictly smaller minimum than maximum: the
source's `else: 0.5` branch inside `_normalize_features` (guarded by
`std ≠ 0`) is unreachable. -/
lemma colMin_lt_colMax (col : List ℚ) (h : colAllEq col = false) :
    colMin col < colMax col := by
  have hx : ∃ x ∈ col, x ≠ col.headD 0 := by
    by_contra hall
    push_neg at hall
    have : colAllEq col = true := by
      simp only [colAllEq, List.all_eq_true]
      intro x hxm
      simpa using hall x hxm
    simp [this] at h
  obtain ⟨x, hxm, hxne⟩ := hx
  have hcol : col ≠ [] := by
    intro hnil
    subst hnil
    simp at hxm
  have hhead : col.headD 0 ∈ col := by
    cases col with
    | nil => simp at hcol
    | cons y l => simp
  rcases lt_or_gt_of_ne hxne with hlt | hgt
  · calc colMin col ≤ x := colMin_le_mem col x hxm
      _ < col.headD 0 := hlt
      _ ≤ colMax col := mem_le_colMax col _ hhead
  · calc colMin col ≤ col.headD 0 := colMin_le_mem col _ hhead
      _ < x := hgt
      _ ≤ colMax col := mem_le_colMax col x hxm

lemma mapFrom_length (f : ℕ → ℚ → ℚ) :
    ∀ (l : List ℚ) (j : ℕ), (mapFrom f j l).length = l.length := by
  intro l
  induction l with
  | nil => intro j; simp [mapFrom]
  | cons v vs ih => intro j; simp [mapFrom, ih]

lemma mapFrom_getD (f : ℕ → ℚ → ℚ) :
    ∀ (l : List ℚ) (j0 k : ℕ), k < l.length →
      (mapFrom f j0 l).getD k 0 = f (j0 + k) (l.getD k 0) := by
  intro l
  induction l with
  | nil => intro j0 k hk; simp at hk
  | cons v vs ih =>
    intro j0 k hk
    cases k with
    | zero => simp [mapFrom]
    | succ k =>
      have := ih (j0 + 1) k (by simpa using hk)
      simp only [mapFrom, List.getD_cons_succ]
      rw [this]
      ring_nf

lemma foldl_argpick {α β : Type} [LinearOrder β] (g : α → β) :
    ∀ (l : List α) (acc : α),
      g acc ≤ g (l.foldl (fun a x => if g x > g a then x else a) acc) ∧
      ∀ x ∈ l, g x ≤ g (l.foldl (fun a x => if g x > g a then x else a) acc) := by
  intro l
  induction l with
  | nil => intro acc; simp
  | cons y l ih =>
    intro acc
    have hstep : g acc ≤ g (if g y > g acc then y else acc) ∧
        g y ≤ g (if g y > g acc then y else acc) := by
      split
      · rename_i hgt
        exact ⟨le_of_lt hgt, le_refl _⟩
      · rename_i hle
        push_neg at hle
        exact ⟨le_refl _, hle⟩
    have hrec := ih (if g y > g acc then y else acc)
    refine ⟨le_trans hstep.1 hrec.1, ?_⟩
    intro x hx
    rcases List.mem_cons.mp hx with h | h
    · subst h
      exact le_trans hstep.2 hrec.1
    · exact hrec.2 x h

lemma mostCommonStr_max (xs : List String) (x : String) (hx : x ∈ xs) :
    xs.count x ≤ xs.count (mostCommonStr xs) :=
  (foldl_argpick (fun s => xs.count s) xs (xs.headD "")).2 x hx

lemma argmax_driver_max (f : Driver → ℚ) (d : Driver) :
    f d ≤ f (argmax_driver f) := by
  have := (foldl_argpick f driverOrder Driver.Safety).2 d
  apply this
  cases d <;> simp [driverOrder]

/-! ## Claim theorems -/

/-- C10: `assign_actor_to_cluster` never raises — it is a total function
into result records — and on every error path (failed feature extraction or
the caught exception) the record has `assigned_cohort_id = None`,
`confidence = 0.0`, `distance_to_center = inf`, an empty alternatives list
and a non-`None` error message (the hypothesis). -/
theorem assign_error_path_spec (actor : Actor) (centers : List (List ℚ))
    (cfg : FeatureConfig)
    (herr : (assign_actor_to_cluster actor centers cfg).error ≠ none) :
    (assign_actor_to_cluster actor centers cfg).assigned_cohort_id = none ∧
    (assign_actor_to_cluster actor centers cfg).confidence = ConfVal.zero ∧
    (assign_actor_to_cluster actor centers cfg).distance_to_center = QInf.inf ∧
    (assign_actor_to_cluster actor centers cfg).alternative_cohorts = [] := by
  cases hx : extract_actor_features actor cfg with
  | none => simp [assign_actor_to_cluster, hx]
  | some fts =>
    by_cases hc : centers = [] ∨ ∃ x ∈ centers, ¬x.length = fts.length
    · simp [assign_actor_to_cluster, hx, assignFromFeatures, hc]
    · exfalso
      apply herr
      simp [assign_actor_to_cluster, hx, assignFromFeatures, hc]

/-- C10 witness: an actor record without a `driver_distribution` key hits
the extraction-failure path. -/
theorem assign_error_path_witness :
    (assign_actor_to_cluster
        { actor_id := "a", driver_distribution := none } [] {}).error ≠ none ∧
      ((assign_actor_to_cluster
          { actor_id := "a", driver_distribution := none } [] {}).assigned_cohort_id
          = none ∧
        (assign_actor_to_cluster
          { actor_id := "a", driver_distribution := none } [] {}).confidence
          = ConfVal.zero ∧
        (assign_actor_to_cluster
          { actor_id := "a", driver_distribution := none } [] {}).distance_to_center
          = QInf.inf ∧
        (assign_actor_to_cluster
          { actor_id := "a", driver_distribution := none } [] {}).alternative_cohorts
          = []) :=
  ⟨by simp [assign_actor_to_cluster, extract_actor_features],
   assign_error_path_spec _ _ _
     (by simp [assign_actor_to_cluster, extract_actor_features])⟩

/-- C1: `batch_assign_actors` is an unimplemented placeholder — for every
actor it returns `assigned_cohort_id = None` with the error message
"Assignment not implemented yet" and never invokes the single-actor
assignment, whereas `assign_actor_to_cluster` on the same actor against a
centroid equal to the actor's feature row succeeds with `cluster_0` and no
error. -/
theorem batch_assign_placeholder_spec :
    batch_assign_actors
        [{ actor_id := "actor-1",
           driver_distribution := some [("Safety", 1), ("Connection", 0),
             ("Status", 0), ("Growth", 0), ("Freedom", 0), ("Purpose", 0)],
           contradiction_score := some 0, superposition_detected := some false,
           coherence := some 0 }] [()] =
      [{ actor_id := "actor-1", assigned_cohort_id := none,
         confidence := ConfVal.zero, distance_to_center := QInf.inf,
         alternative_cohorts := [],
         error := some "Assignment not implemented yet" }] ∧
    (assign_actor_to_cluster
        { actor_id := "actor-1",
          driver_distribution := some [("Safety", 1), ("Connection", 0),
            ("Status", 0), ("Growth", 0), ("Freedom", 0), ("Purpose", 0)],
          contradiction_score := some 0, superposition_detected := some false,
          coherence := some 0 }
        [[1, 0, 0, 0, 0, 0, 0, 0, 0]] {}).assigned_cohort_id =
      some (clusterName 0) ∧
    (assign_actor_to_cluster
        { actor_id := "actor-1",
          driver_distribution := some [("Safety", 1), ("Connection", 0),
            ("Status", 0), ("Growth", 0), ("Freedom", 0), ("Purpose", 0)],
          contradiction_score := some 0, superposition_detected := some false,
          coherence := some 0 }
        [[1, 0, 0, 0, 0, 0, 0, 0, 0]] {}).error = none := by
  have hext : extract_actor_features
      { actor_id := "actor-1",
        driver_distribution := some [("Safety", 1), ("Connection", 0),
          ("Status", 0), ("Growth", 0), ("Freedom", 0), ("Purpose", 0)],
        contradiction_score := some 0, superposition_detected := some false,
        coherence := some 0 } {} = some [1, 0, 0, 0, 0, 0, 0, 0, 0] := rfl
  refine ⟨by simp [batch_assign_actors], ?_, ?_⟩ <;>
    norm_num [assign_actor_to_cluster, hext, assignFromFeatures, distSq,
      argminIdx, sortIdx, insertIdxBy]

/-- C4: at features `[0]` and centroids `[[1],[2],[3],[0]]` the assigned
cohort is `cluster_3`, yet the alternatives list has three entries and its
first entry is `cluster_3` itself: the loop skips positions `i` equal to
the argmin index instead of skipping the assigned cluster, contradicting
the source's own "Skip the assigned cluster" comment. -/
theorem assign_alternatives_bug :
    (assignFromFeatures [0] [[1], [2], [3], [0]]).assigned_cohort_id =
        some (clusterName 3) ∧
    (assignFromFeatures [0] [[1], [2], [3], [0]]).alternative_cohorts.length
        = 3 ∧
    ((assignFromFeatures [0] [[1], [2], [3], [0]]).alternative_cohorts.map
        (fun a => a.cohort_id)) = [clusterName 3, clusterName 0, clusterName 1] := by
  norm_num [assignFromFeatures, distSq, argminIdx, sortIdx, insertIdxBy,
    List.range_succ]

/-- Specification of a successful nearest-centroid assignment (C3): the
primary cohort is the first index minimizing the Euclidean distance to a
centroid, the stored confidence is `max(0, 1 − distance/√numFeatures)`,
that value lies in `[0, 1]`, and a feature vector equal to a centroid is
assigned a centroid equal to itself with confidence `1`. -/
def AssignNearestProp (fts : List ℚ) (centers : List (List ℚ)) : Prop :=
  let r := assignFromFeatures fts centers
  let n := argminIdx (centers.map (distSq fts))
  r.error = none ∧
  r.assigned_cohort_id = some (clusterName n) ∧
  n < centers.length ∧
  (∀ j, j < centers.length →
    distE fts (centers.getD n []) ≤ distE fts (centers.getD j [])) ∧
  r.confidence = ConfVal.ofDistSq (distSq fts (centers.getD n [])) fts.length ∧
  r.confidence.toReal =
    max 0 (1 - distE fts (centers.getD n []) / Real.sqrt (fts.length : ℝ)) ∧
  0 ≤ r.confidence.toReal ∧ r.confidence.toReal ≤ 1 ∧
  (fts ∈ centers → centers.getD n [] = fts ∧ r.confidence.toReal = 1)

/-- C3: for every feature vector and nonempty centroid list of matching
dimension, `assign_actor_to_cluster`'s core selects the minimum-Euclidean-
distance cohort as primary, with confidence `max(0, 1 − d/√m)` in `[0, 1]`,
and an exact centroid match yields that centroid with confidence `1`. -/
theorem assign_nearest_spec (fts : List ℚ) (centers : List (List ℚ))
    (hne : centers ≠ []) (hdim : ∀ c ∈ centers, c.length = fts.length)
    (_hm : 0 < fts.length) : AssignNearestProp fts centers := by
  have hds : ∀ k, (centers.map (distSq fts)).getD k 0 =
      distSq fts (centers.getD k []) := by
    intro k
    have := getD_map_eq (distSq fts) centers [] k
    rwa [distSq_nil_right] at this
  have hr : assignFromFeatures fts centers =
      { assigned_cohort_id :=
          some (clusterName (argminIdx (centers.map (distSq fts)))),
        confidence := ConfVal.ofDistSq
          ((centers.map (distSq fts)).getD
            (argminIdx (centers.map (distSq fts))) 0) fts.length,
        distance_to_center := QInf.fin
          ((centers.map (distSq fts)).getD
            (argminIdx (centers.map (distSq fts))) 0),
        alternative_cohorts :=
          ((List.range (min 3 (sortIdx (centers.map (distSq fts))).length)).filter
            (fun i => i ≠ argminIdx (centers.map (distSq fts)))).map
            (fun i =>
              let altIdx := (sortIdx (centers.map (distSq fts))).getD i 0
              { cohort_id := clusterName altIdx,
                distanceSq := (centers.map (distSq fts)).getD altIdx 0,
                confidence := ConfVal.ofDistSq
                  ((centers.map (distSq fts)).getD altIdx 0) fts.length }),
        error := none } := by
    unfold assignFromFeatures
    split
    · rename_i hcond
      exfalso
      rcases hcond with h | h
      · exact hne (by simpa using h)
      · obtain ⟨c, hc, hlen⟩ := by simpa using h
        exact hlen (hdim c hc)
    · rfl
  set ds := centers.map (distSq fts) with hdsdef
  set n := argminIdx ds with hn
  have hlt : n < centers.length := by
    have := argminIdx_lt ds (by simp [hdsdef, hne])
    simpa [hdsdef] using this
  unfold AssignNearestProp
  refine ⟨?_, ?_, ?_, ?_, ?_, ?_, ?_, ?_, ?_⟩
  · rw [hr]
  · rw [hr]
  · exact hlt
  · intro j hj
    have := argminIdx_min ds j (by simpa [hdsdef] using hj)
    rw [hds n, hds j] at this
    exact Real.sqrt_le_sqrt (by exact_mod_cast this)
  · rw [hr, hds n]
  · rw [hr, hds n]
    simp [ConfVal.toReal, distE]
  · rw [hr]
    exact confVal_toReal_nonneg _
  · rw [hr]
    exact confVal_toReal_le_one _
  · intro hmem
    obtain ⟨i, hi, hieq⟩ := List.mem_iff_getElem.mp hmem
    have hdi : ds.getD i 0 = 0 := by
      rw [hds i, List.getD_eq_getElem centers [] hi, hieq, distSq_self]
    have hdn0 : ds.getD n 0 = 0 := by
      have hle := argminIdx_min ds i (by simpa [hdsdef] using hi)
      have hge : 0 ≤ ds.getD n 0 := by
        rw [hds n]
        exact distSq_nonneg _ _
      rw [hdi] at hle
      linarith
    have hcent : centers.getD n [] = fts := by
      have hz : distSq fts (centers.getD n []) = 0 := by
        rw [← hds n]
        exact hdn0
      have hmemn : centers.getD n [] ∈ centers := by
        rw [List.getD_eq_getElem centers [] hlt]
        exact List.getElem_mem hlt
      exact (distSq_eq_zero fts (centers.getD n [])
        ((hdim _ hmemn).symm) hz).symm
    refine ⟨hcent, ?_⟩
    rw [hr, hds n, hcent, distSq_self]
    exact confVal_toReal_zero_dist _

/-- C3 witness: two centroids in dimension 2, the feature vector equal to
the first centroid. -/
theorem assign_nearest_witness :
    ([[(1 : ℚ)/2, 1/2], [0, 0]] ≠ ([] : List (List ℚ))) ∧
    (∀ c ∈ [[(1 : ℚ)/2, 1/2], [0, 0]], c.length = [(1 : ℚ)/2, 1/2].length) ∧
    0 < [(1 : ℚ)/2, 1/2].length ∧
    AssignNearestProp [(1 : ℚ)/2, 1/2] [[(1 : ℚ)/2, 1/2], [0, 0]] :=
  ⟨by simp, by intro c hc; rcases List.mem_cons.mp hc with h | h <;> simp_all,
   by simp,
   assign_nearest_spec _ _ (by simp)
     (by intro c hc; rcases List.mem_cons.mp hc with h | h <;> simp_all)
     (by simp)⟩

/-- C2 (amended): under `_normalize_features`, a zero-variance column is
left unchanged at its original constant value (the `continue` branch), and
every column with at least two distinct values is min–max scaled so its
output values lie in `[0, 1]`. -/
theorem normalize_features_spec (features : List (List ℚ))
    (names : List String) (j : ℕ)
    (hrect : ∀ r ∈ features, r.length = names.length)
    (hj : j < names.length) :
    (colAllEq (colOf features j) = true →
      colOf (normalize_features features names) j = colOf features j) ∧
    (colAllEq (colOf features j) = false →
      ∀ v ∈ colOf (normalize_features features names) j, 0 ≤ v ∧ v ≤ 1) := by
  constructor
  · intro h
    simp only [colOf, normalize_features, List.map_map]
    apply List.map_congr_left
    intro r hr
    have hjr : j < r.length := by
      rw [hrect r hr]
      exact hj
    rw [Function.comp_apply, mapFrom_getD _ r 0 j hjr]
    simp only [Nat.zero_add, if_pos hj]
    simp only [colOf] at h
    rw [if_pos h]
  · intro h v hv
    have hmm := colMin_lt_colMax _ h
    simp only [colOf, normalize_features, List.map_map] at hv
    obtain ⟨r, hr, hveq⟩ := List.mem_map.mp hv
    have hjr : j < r.length := by
      rw [hrect r hr]
      exact hj
    rw [Function.comp_apply, mapFrom_getD _ r 0 j hjr] at hveq
    simp only [Nat.zero_add, if_pos hj] at hveq
    simp only [colOf] at h hmm
    rw [if_neg (by rw [h]; simp), if_pos hmm] at hveq
    have hxmem : r.getD j 0 ∈ List.map (fun r => r.getD j 0) features :=
      List.mem_map.mpr ⟨r, hr, rfl⟩
    have hlo : colMin (List.map (fun r => r.getD j 0) features) ≤ r.getD j 0 :=
      colMin_le_mem _ _ hxmem
    have hhi : r.getD j 0 ≤ colMax (List.map (fun r => r.getD j 0) features) :=
      mem_le_colMax _ _ hxmem
    subst hveq
    constructor
    · exact div_nonneg (by linarith) (by linarith)
    · rw [div_le_one (by linarith)]
      linarith

/-- C2 counterexample: a matrix whose single column is constant at `0.9`
is returned unchanged by `_normalize_features` — the constant column is not
set to `0.5` (the `0.5` assignment in the source is dead code, see
`colMin_lt_colMax`). -/
theorem normalize_constant_counterexample :
    normalize_features [[9/10], [9/10]] ["contradiction_score"] =
        [[9/10], [9/10]] ∧
    ((9 : ℚ)/10 ≠ 1/2) := by
  constructor
  · norm_num [normalize_features, mapFrom, colOf, colAllEq, colMin, colMax]
  · norm_num

/-- C2 witness: a rectangular matrix with one non-constant column. -/
theorem normalize_features_witness :
    (∀ r ∈ [[(0 : ℚ)], [1]], r.length = (["c"] : List String).length) ∧
    0 < (["c"] : List String).length ∧
    ((colAllEq (colOf [[(0 : ℚ)], [1]] 0) = true →
        colOf (normalize_features [[(0 : ℚ)], [1]] ["c"]) 0 =
          colOf [[(0 : ℚ)], [1]] 0) ∧
      (colAllEq (colOf [[(0 : ℚ)], [1]] 0) = false →
        ∀ v ∈ colOf (normalize_features [[(0 : ℚ)], [1]] ["c"]) 0,
          0 ≤ v ∧ v ≤ 1)) :=
  ⟨by intro r hr; rcases List.mem_cons.mp hr with h | h <;> simp_all,
   by simp,
   normalize_features_spec _ _ 0
     (by intro r hr; rcases List.mem_cons.mp hr with h | h <;> simp_all)
     (by simp)⟩

/-- C5: for any metric functions (the scikit-learn calls), `validate_clustering`
stores their computed values exactly when there are at least two distinct
labels and strictly fewer distinct labels than points, and otherwise stores
the sentinels −1.0 (silhouette), 0 (Calinski–Harabasz) and +inf
(Davies–Bouldin); being a total function, it raises no exception in the
undefined-metric cases. -/
theorem validate_clustering_spec
    (silhFn chFn dbFn : List (List ℚ) → List ℤ → ℚ)
    (features : List (List ℚ)) (labels : List ℤ) :
    ((1 < uniqueCount labels ∧ uniqueCount labels < features.length) →
      (validate_clustering silhFn chFn dbFn features labels).silhouette_score =
          silhFn features labels ∧
      (validate_clustering silhFn chFn dbFn features
          labels).calinski_harabasz_score = chFn features labels ∧
      (validate_clustering silhFn chFn dbFn features labels).davies_bouldin_score
          = QInf.fin (dbFn features labels)) ∧
    (¬(1 < uniqueCount labels ∧ uniqueCount labels < features.length) →
      (validate_clustering silhFn chFn dbFn features labels).silhouette_score =
          -1 ∧
      (validate_clustering silhFn chFn dbFn features
          labels).calinski_harabasz_score = 0 ∧
      (validate_clustering silhFn chFn dbFn features labels).davies_bouldin_score
          = QInf.inf) := by
  constructor <;> intro h <;>
    simp [validate_clustering, h]

/-- C5 witness: three points with two distinct labels hit the defined case;
the same three points with one label hit every sentinel. -/
theorem validate_clustering_witness :
    ((1 < uniqueCount [0, 0, 1] ∧ uniqueCount [0, 0, 1] <
        ([[(0 : ℚ)], [1], [2]] : List (List ℚ)).length) →
      (validate_clustering (fun _ _ => 5) (fun _ _ => 7) (fun _ _ => 3)
          [[(0 : ℚ)], [1], [2]] [0, 0, 1]).silhouette_score =
          (fun (_ : List (List ℚ)) (_ : List ℤ) => (5 : ℚ)) [[(0 : ℚ)], [1], [2]]
            [0, 0, 1] ∧
      (validate_clustering (fun _ _ => 5) (fun _ _ => 7) (fun _ _ => 3)
          [[(0 : ℚ)], [1], [2]] [0, 0, 1]).calinski_harabasz_score =
          (fun (_ : List (List ℚ)) (_ : List ℤ) => (7 : ℚ)) [[(0 : ℚ)], [1], [2]]
            [0, 0, 1] ∧
      (validate_clustering (fun _ _ => 5) (fun _ _ => 7) (fun _ _ => 3)
          [[(0 : ℚ)], [1], [2]] [0, 0, 1]).davies_bouldin_score =
          QInf.fin ((fun (_ : List (List ℚ)) (_ : List ℤ) => (3 : ℚ))
            [[(0 : ℚ)], [1], [2]] [0, 0, 1])) ∧
    (¬(1 < uniqueCount [0, 0, 1] ∧ uniqueCount [0, 0, 1] <
        ([[(0 : ℚ)], [1], [2]] : List (List ℚ)).length) →
      (validate_clustering (fun _ _ => 5) (fun _ _ => 7) (fun _ _ => 3)
          [[(0 : ℚ)], [1], [2]] [0, 0, 1]).silhouette_score = -1 ∧
      (validate_clustering (fun _ _ => 5) (fun _ _ => 7) (fun _ _ => 3)
          [[(0 : ℚ)], [1], [2]] [0, 0, 1]).calinski_harabasz_score = 0 ∧
      (validate_clustering (fun _ _ => 5) (fun _ _ => 7) (fun _ _ => 3)
          [[(0 : ℚ)], [1], [2]] [0, 0, 1]).davies_bouldin_score = QInf.inf) :=
  validate_clustering_spec (fun _ _ => 5) (fun _ _ => 7) (fun _ _ => 3)
    [[(0 : ℚ)], [1], [2]] [0, 0, 1]

/-- C6: an actor list shorter than the configured minimum of 10 makes
`prepare_feature_matrix` fail — with the "Insufficient actors" error (the
spec's `InsufficientDataError`) for a nonempty list, and with the even
earlier "No actors provided" error for an empty one — so no feature matrix
is ever handed to a clustering algorithm. -/
theorem prepare_insufficient_spec (actors : List Actor) (cfg : FeatureConfig)
    (hlt : actors.length < 10)
    (hkeys : cfg.include_drivers = true →
      ∀ a ∈ actors, a.driver_distribution ≠ none) :
    prepare_feature_matrix actors cfg =
      .error (if actors.isEmpty then PrepError.noActors
              else PrepError.insufficientActors actors.length 10) := by
  cases actors with
  | nil => simp [prepare_feature_matrix]
  | cons a as =>
    simp only [prepare_feature_matrix]
    rw [if_neg (by simp)]
    rw [if_neg ?hkey]
    case hkey =>
      rintro ⟨hd, hany⟩
      obtain ⟨x, hx, hnone⟩ := List.any_eq_true.mp hany
      exact hkeys hd x hx (by simpa using hnone)
    have hlen :
        (if cfg.normalize then
            normalize_features ((a :: as).map (fun x => buildRow x cfg))
              (featureNamesOf cfg)
          else (a :: as).map (fun x => buildRow x cfg)).length =
          (a :: as).length := by
      cases cfg.normalize <;> simp [normalize_features]
    have hval :
        validate_feature_matrix
          (if cfg.normalize then
              normalize_features ((a :: as).map (fun x => buildRow x cfg))
                (featureNamesOf cfg)
            else (a :: as).map (fun x => buildRow x cfg)) 10 =
          .error (PrepError.insufficientActors (a :: as).length 10) := by
      unfold validate_feature_matrix
      rw [if_neg ?hfe, if_pos (by rw [hlen]; exact hlt), hlen]
      case hfe =>
        intro hFE
        have h0 := congrArg List.length (List.isEmpty_iff.mp hFE)
        rw [hlen] at h0
        simp at h0
    rw [hval]
    simp

/-- C6 witness: five well-formed actors (below the default minimum of 10)
are rejected with the insufficient-actors error. -/
theorem prepare_insufficient_witness :
    ([{ actor_id := "a1", driver_distribution := some [("Safety", 1)] },
      { actor_id := "a2", driver_distribution := some [("Safety", 1)] },
      { actor_id := "a3", driver_distribution := some [("Safety", 1)] },
      { actor_id := "a4", driver_distribution := some [("Safety", 1)] },
      { actor_id := "a5", driver_distribution := some [("Safety", 1)] }] :
        List Actor).length < 10 ∧
    prepare_feature_matrix
      [{ actor_id := "a1", driver_distribution := some [("Safety", 1)] },
       { actor_id := "a2", driver_distribution := some [("Safety", 1)] },
       { actor_id := "a3", driver_distribution := some [("Safety", 1)] },
       { actor_id := "a4", driver_distribution := some [("Safety", 1)] },
       { actor_id := "a5", driver_distribution := some [("Safety", 1)] }] {} =
      .error (PrepError.insufficientActors 5 10) := by
  refine ⟨by simp, ?_⟩
  have h := prepare_insufficient_spec
    [{ actor_id := "a1", driver_distribution := some [("Safety", 1)] },
     { actor_id := "a2", driver_distribution := some [("Safety", 1)] },
     { actor_id := "a3", driver_distribution := some [("Safety", 1)] },
     { actor_id := "a4", driver_distribution := some [("Safety", 1)] },
     { actor_id := "a5", driver_distribution := some [("Safety", 1)] }] {}
    (by simp)
    (by
      intro _ a ha
      simp only [List.mem_cons, List.not_mem_nil, or_false] at ha
      rcases ha with h | h | h | h | h <;> subst h <;> simp)
  simpa using h

/-- C7: the generated cohort name follows the priority order of
`_generate_cohort_name` — contradiction > 0.6 first, then dominant mean
> 0.7, then superposition prevalence > 30%, else "Balanced" — where the
driver is the first driver of maximal mean value in the profile. -/
theorem cohort_name_spec (profile : Driver → ℚ) (ch : Characteristics) :
    (∀ e, profile e ≤ profile (argmax_driver profile)) ∧
    (ch.avg_contradiction > 6 / 10 →
      generate_cohort_name profile ch =
        "High-Contradiction " ++ (argmax_driver profile).str) ∧
    (¬(ch.avg_contradiction > 6 / 10) →
      profile (argmax_driver profile) > 7 / 10 →
      generate_cohort_name profile ch =
        (argmax_driver profile).str ++ "-Focused") ∧
    (¬(ch.avg_contradiction > 6 / 10) →
      ¬(profile (argmax_driver profile) > 7 / 10) →
      ch.superposition_prevalence > 30 →
      generate_cohort_name profile ch =
        "Quantum " ++ (argmax_driver profile).str) ∧
    (¬(ch.avg_contradiction > 6 / 10) →
      ¬(profile (argmax_driver profile) > 7 / 10) →
      ¬(ch.superposition_prevalence > 30) →
      generate_cohort_name profile ch =
        "Balanced " ++ (argmax_driver profile).str) := by
  refine ⟨argmax_driver_max profile, ?_, ?_, ?_, ?_⟩
  · intro h1
    simp only [generate_cohort_name]
    rw [if_pos h1]
  · intro h1 h2
    simp only [generate_cohort_name]
    rw [if_neg h1, if_pos h2]
  · intro h1 h2 h3
    simp only [generate_cohort_name]
    rw [if_neg h1, if_neg h2, if_pos h3]
  · intro h1 h2 h3
    simp only [generate_cohort_name]
    rw [if_neg h1, if_neg h2, if_neg h3]

/-- C7 witness: a profile dominated by Safety at 0.8 with low contradiction
and low quantum prevalence lands in the "-Focused" branch. -/
theorem cohort_name_witness :
    generate_cohort_name
        (fun d => match d with | Driver.Safety => 4 / 5 | _ => 1 / 25)
        { dominant_driver := "Safety", dominant_percentage := 100,
          avg_contradiction := 0, contradiction_distribution := (100, 0, 0),
          superposition_prevalence := 0, avg_coherence := 0,
          common_identities := [], driver_variance := 0,
          cluster_cohesion := CohesionVal.one } = "Safety-Focused" ∧
    (∀ e, (fun d => match d with | Driver.Safety => (4 : ℚ) / 5 | _ => 1 / 25) e
      ≤ (fun d => match d with | Driver.Safety => (4 : ℚ) / 5 | _ => 1 / 25)
        (argmax_driver
          (fun d => match d with
            | Driver.Safety => (4 : ℚ) / 5 | _ => 1 / 25))) := by
  have harg : argmax_driver
      (fun d => match d with | Driver.Safety => (4 : ℚ) / 5 | _ => 1 / 25) =
      Driver.Safety := by
    norm_num [argmax_driver, driverOrder]
  constructor
  · have h := (cohort_name_spec
      (fun d => match d with | Driver.Safety => (4 : ℚ) / 5 | _ => 1 / 25)
      { dominant_driver := "Safety", dominant_percentage := 100,
        avg_contradiction := 0, contradiction_distribution := (100, 0, 0),
        superposition_prevalence := 0, avg_coherence := 0,
        common_identities := [], driver_variance := 0,
        cluster_cohesion := CohesionVal.one }).2.2.1
    rw [harg] at h
    simpa [Driver.str] using h (by norm_num) (by norm_num)
  · exact argmax_driver_max _

/-- C8: given the repository invariant that each member's stored
`dominant_driver` is the argmax of its own `driver_distribution`
(established by `_clean_actor_profile`), the cluster characteristics report
as dominant driver the most frequent per-member argmax driver (ties to the
first encountered), together with its prevalence percentage. -/
theorem dominant_driver_spec (members : List Member)
    (feats : List (List ℚ)) (_hne : members ≠ [])
    (hclean : ∀ a ∈ members, cleanedMember a) :
    (calculate_cluster_characteristics members feats).dominant_driver =
      mostCommonStr
        (members.map (fun a => (argmax_driver a.driver_distribution).str)) ∧
    (∀ s ∈ members.map (fun a => (argmax_driver a.driver_distribution).str),
      (members.map (fun a => (argmax_driver a.driver_distribution).str)).count s
        ≤ (members.map
            (fun a => (argmax_driver a.driver_distribution).str)).count
          ((calculate_cluster_characteristics members feats).dominant_driver)) ∧
    (calculate_cluster_characteristics members feats).dominant_percentage =
      (((members.map
          (fun a => (argmax_driver a.driver_distribution).str)).count
          ((calculate_cluster_characteristics members
            feats).dominant_driver) : ℚ) / members.length) * 100 := by
  have hmap : members.map (fun a => a.dominant_driver) =
      members.map (fun a => (argmax_driver a.driver_distribution).str) :=
    List.map_congr_left (fun a ha => hclean a ha)
  have hdom : (calculate_cluster_characteristics members feats).dominant_driver
      = mostCommonStr
        (members.map (fun a => (argmax_driver a.driver_distribution).str)) := by
    simp only [calculate_cluster_characteristics]
    rw [hmap]
  refine ⟨hdom, ?_, ?_⟩
  · intro s hs
    rw [hdom]
    exact mostCommonStr_max _ s hs
  · rw [hdom]
    simp only [calculate_cluster_characteristics]
    rw [hmap]

/-- C8 witness: two cleaned members whose per-member argmax is Status. -/
theorem dominant_driver_witness :
    ((calculate_cluster_characteristics
        [{ actor_id := "a1",
           driver_distribution :=
             fun d => match d with | Driver.Status => 3 / 5 | _ => 2 / 25,
           dominant_driver := "Status", contradiction_score := 1 / 10 },
         { actor_id := "a2",
           driver_distribution :=
             fun d => match d with | Driver.Status => 3 / 5 | _ => 2 / 25,
           dominant_driver := "Status", contradiction_score := 1 / 10 }]
        [[(0 : ℚ)], [0]]).dominant_driver = "Status") ∧
    ((calculate_cluster_characteristics
        [{ actor_id := "a1",
           driver_distribution :=
             fun d => match d with | Driver.Status => 3 / 5 | _ => 2 / 25,
           dominant_driver := "Status", contradiction_score := 1 / 10 },
         { actor_id := "a2",
           driver_distribution :=
             fun d => match d with | Driver.Status => 3 / 5 | _ => 2 / 25,
           dominant_driver := "Status", contradiction_score := 1 / 10 }]
        [[(0 : ℚ)], [0]]).dominant_percentage = 100) := by
  have harg : argmax_driver
      (fun d => match d with | Driver.Status => (3 : ℚ) / 5 | _ => 2 / 25) =
      Driver.Status := by
    norm_num [argmax_driver, driverOrder]
  have h := dominant_driver_spec
    [{ actor_id := "a1",
       driver_distribution :=
         fun d => match d with | Driver.Status => 3 / 5 | _ => 2 / 25,
       dominant_driver := "Status", contradiction_score := 1 / 10 },
     { actor_id := "a2",
       driver_distribution :=
         fun d => match d with | Driver.Status => 3 / 5 | _ => 2 / 25,
       dominant_driver := "Status", contradiction_score := 1 / 10 }]
    [[(0 : ℚ)], [0]] (by simp)
    (by
      intro a ha
      simp only [List.mem_cons, List.not_mem_nil, or_false] at ha
      rcases ha with h | h <;> subst h <;>
        simp [cleanedMember, harg, Driver.str])
  obtain ⟨h1, _, h3⟩ := h
  simp only [List.map_cons, List.map_nil, harg] at h1 h3
  constructor
  · rw [h1]
    norm_num [mostCommonStr, Driver.str]
  · rw [h3, h1]
    norm_num [mostCommonStr, Driver.str]
